import Mathlib

/-! ios-cpuhack: patching the cpu subtype of a Mach-O header.

A shallow embedding of `main.c`: the subtype symbol table (`getcpusubtype`,
`getcpusubtype_i`), the digit test `isnumeric`, the 28-byte `mach_header`
record with its byte-level layout, and `main` as a function from the
environment (platform, file contents, outcome of the stdio calls) and the
argument vector to the exit code, the resulting file, the text printed and
the stdio calls made.

Conventions.
* `uint32_t` values are `Nat`s below `2 ^ 32`; conversions are written with
  an explicit `% 2 ^ 32`.
* A C string is the `String` of the characters before its terminating NUL.
* A file is the list of its bytes.
-/

namespace CpuHack

/-! ## Constants of `main.c` -/

/-- One byte of a file. -/
abbrev Byte := Fin 256

/-- The line `static const uint32_t MH_MAGIC = 0xFEEDFACE;`. -/
def MH_MAGIC : Nat := 0xFEEDFACE

/-- Size in bytes of `mach_header`: seven `uint32_t` fields, no padding. -/
def sizeof_mach_header : Nat := 28

def CTM_ARM : Nat := 12

def CSARM_ALL : Nat := 0
def CSARM_V4T : Nat := 5
def CSARM_V6 : Nat := 6
def CSARM_V5TEJ : Nat := 7
def CSARM_XSCALE : Nat := 8
def CSARM_V7 : Nat := 9
def CSARM_V7F : Nat := 10
def CSARM_V7S : Nat := 11
def CSARM_V7K : Nat := 12
def CSARM_V6M : Nat := 14
def CSARM_V7M : Nat := 15
def CSARM_V7EM : Nat := 16

/-- The string `UNKNOWN` points to. `getcpusubtype` returns this pointer only
in its `default` case, and no other literal it returns has the same text, so
the pointer test `getcpusubtype(x) == UNKNOWN` is the test on the text. -/
def UNKNOWN : String := "unknown"

/-- The value of `(uint32_t)-1`, returned by `getcpusubtype_i` when no name
matches. -/
def NOT_FOUND : Nat := 0xFFFFFFFF

/-- The codes of the `CSARM_*` enumeration. -/
def knownCodes : List Nat := [0, 5, 6, 7, 8, 9, 10, 11, 12, 14, 15, 16]

/-- The names `getcpusubtype` renders for the codes of `knownCodes`. -/
def knownNames : List String :=
  ["armall", "armv4t", "armv6", "armv5tej", "armxscale", "armv7", "armv7f",
   "armv7s", "armv7k", "armv6m", "armv7m", "armv7em"]

/-! ## The symbol table -/

/-- The `switch` of `getcpusubtype`: name of a subtype code. -/
def getcpusubtype (cpusubtype : Nat) : String :=
  if cpusubtype = CSARM_ALL then "armall"
  else if cpusubtype = CSARM_V4T then "armv4t"
  else if cpusubtype = CSARM_V6 then "armv6"
  else if cpusubtype = CSARM_V5TEJ then "armv5tej"
  else if cpusubtype = CSARM_XSCALE then "armxscale"
  else if cpusubtype = CSARM_V7 then "armv7"
  else if cpusubtype = CSARM_V7F then "armv7f"
  else if cpusubtype = CSARM_V7S then "armv7s"
  else if cpusubtype = CSARM_V7K then "armv7k"
  else if cpusubtype = CSARM_V6M then "armv6m"
  else if cpusubtype = CSARM_V7M then "armv7m"
  else if cpusubtype = CSARM_V7EM then "armv7em"
  else UNKNOWN

/-- The `strcmp` chain of `getcpusubtype_i`, in the order of the source: eleven
comparisons (there is none against "armv4t"), then `return -1`. -/
def getcpusubtype_i (cpusubtype : String) : Nat :=
  if cpusubtype = "armall" then CSARM_ALL
  else if cpusubtype = "armv6" then CSARM_V6
  else if cpusubtype = "armv5tej" then CSARM_V5TEJ
  else if cpusubtype = "armxscale" then CSARM_XSCALE
  else if cpusubtype = "armv7" then CSARM_V7
  else if cpusubtype = "armv7f" then CSARM_V7F
  else if cpusubtype = "armv7s" then CSARM_V7S
  else if cpusubtype = "armv7k" then CSARM_V7K
  else if cpusubtype = "armv6m" then CSARM_V6M
  else if cpusubtype = "armv7m" then CSARM_V7M
  else if cpusubtype = "armv7em" then CSARM_V7EM
  else NOT_FOUND

/-- The loop of `isnumeric` over the characters before the terminator:
`if (*p >= '9' || *p <= '0') return 0;`, and `return 1` at the end. The
characters '9' and '0' have codes 57 and 48; a byte above 127 fails the test
whether `char` is signed or not. -/
def isnumericChars : List Char → Nat
  | [] => 1
  | c :: cs => if c.toNat ≥ 57 ∨ c.toNat ≤ 48 then 0 else isnumericChars cs

/-- The function `isnumeric` on a C string. -/
def isnumeric (str : String) : Nat := isnumericChars str.toList

/-! ## The C library call `strtoul(s, NULL, 10)` -/

/-- The test `isspace` in the "C" locale: space, and the codes 9 to 13. -/
def isspace (c : Char) : Bool := c.toNat = 32 || (9 ≤ c.toNat && c.toNat ≤ 13)

/-- Value of the longest leading run of decimal digits, from accumulator
`acc`. -/
def digitsValue : Nat → List Char → Nat
  | acc, [] => acc
  | acc, c :: cs =>
    if 48 ≤ c.toNat ∧ c.toNat ≤ 57 then digitsValue (10 * acc + (c.toNat - 48)) cs
    else acc

/-- Modelled from the spec: `strtoul` is a C library function, not part of the
repository; the spec says the string is parsed "as a base-10 unsigned
integer". This follows the C standard: leading white space is skipped, an
optional sign is read, then the longest run of digits; a value above
`ULONG_MAX` gives `ULONG_MAX`, a leading minus negates in `unsigned long`. -/
def strtoul (ULONG_MAX : Nat) (s : List Char) : Nat :=
  let s1 := s.dropWhile isspace
  let neg : Bool := s1.head? = some '-'
  let s2 := if s1.head? = some '-' ∨ s1.head? = some '+' then s1.tail else s1
  let v := digitsValue 0 s2
  if v > ULONG_MAX then ULONG_MAX
  else if neg then (ULONG_MAX + 1 - v) % (ULONG_MAX + 1)
  else v

/-- Lines 129 to 140 of `main`: the value `newcpusubtype` holds when control
reaches line 142, or `none` when "invalid cpu subtype given!" is printed and
`main` returns 1. The result of `strtoul` is converted to `uint32_t`. -/
def resolve (ULONG_MAX : Nat) (arg : String) : Option Nat :=
  let newcpusubtype := getcpusubtype_i arg
  if newcpusubtype = NOT_FOUND then
    let isnum := isnumeric arg
    let newcpusubtype :=
      if isnum ≠ 0 then strtoul ULONG_MAX arg.toList % 2 ^ 32 else newcpusubtype
    if isnum = 0 ∨ getcpusubtype newcpusubtype = UNKNOWN then none
    else some newcpusubtype
  else some newcpusubtype

/-! ## The header record and its bytes -/

/-- The record `mach_header`: seven `uint32_t` fields in this order. -/
structure mach_header where
  magic : Nat
  cputype : Nat
  cpusubtype : Nat
  filetype : Nat
  ncmds : Nat
  sizeofcmds : Nat
  flags : Nat
deriving DecidableEq, Repr

/-- The `uint32_t` that four consecutive bytes of memory hold, in the byte
order of the host. -/
def u32OfBytes (bigEndian : Bool) (b0 b1 b2 b3 : Byte) : Nat :=
  if bigEndian then b0.val * 16777216 + b1.val * 65536 + b2.val * 256 + b3.val
  else b0.val + b1.val * 256 + b2.val * 65536 + b3.val * 16777216

/-- The low eight bits of a number. -/
def byteOf (n : Nat) : Byte := ⟨n % 256, Nat.mod_lt n (by decide)⟩

/-- The four bytes a `uint32_t` occupies in memory, in the byte order of the
host. -/
def bytesOfU32 (bigEndian : Bool) (v : Nat) : List Byte :=
  if bigEndian then [byteOf (v / 16777216), byteOf (v / 65536), byteOf (v / 256), byteOf v]
  else [byteOf v, byteOf (v / 256), byteOf (v / 65536), byteOf (v / 16777216)]

/-- Reads one `uint32_t` off the front of a buffer. -/
def readU32 (bigEndian : Bool) : List Byte → Option (Nat × List Byte)
  | b0 :: b1 :: b2 :: b3 :: rest => some (u32OfBytes bigEndian b0 b1 b2 b3, rest)
  | _ => none

/-- The record a buffer of at least 28 bytes holds when it is read as a
`mach_header` (what `fread(&m, 1, sizeof(mach_header), f)` leaves in `m`);
`none` when fewer than 28 bytes are there. -/
def decode (bigEndian : Bool) (buf : List Byte) : Option mach_header :=
  match readU32 bigEndian buf with
  | none => none
  | some (magic, r1) =>
  match readU32 bigEndian r1 with
  | none => none
  | some (cputype, r2) =>
  match readU32 bigEndian r2 with
  | none => none
  | some (cpusubtype, r3) =>
  match readU32 bigEndian r3 with
  | none => none
  | some (filetype, r4) =>
  match readU32 bigEndian r4 with
  | none => none
  | some (ncmds, r5) =>
  match readU32 bigEndian r5 with
  | none => none
  | some (sizeofcmds, r6) =>
  match readU32 bigEndian r6 with
  | none => none
  | some (flags, _) =>
    some { magic := magic, cputype := cputype, cpusubtype := cpusubtype,
           filetype := filetype, ncmds := ncmds, sizeofcmds := sizeofcmds,
           flags := flags }

/-- The 28 bytes of a `mach_header` in memory (what `fwrite(&m, 1,
sizeof(mach_header), f)` hands to the stream). -/
def encode (bigEndian : Bool) (m : mach_header) : List Byte :=
  bytesOfU32 bigEndian m.magic ++ bytesOfU32 bigEndian m.cputype ++
  bytesOfU32 bigEndian m.cpusubtype ++ bytesOfU32 bigEndian m.filetype ++
  bytesOfU32 bigEndian m.ncmds ++ bytesOfU32 bigEndian m.sizeofcmds ++
  bytesOfU32 bigEndian m.flags

/-! ## What `main` prints -/

/-- The conversion `%d` applied to a `uint32_t`: the value read as a signed
32-bit integer. -/
def fmt_d (v : Nat) : String :=
  if v < 2 ^ 31 then toString v else "-" ++ toString (2 ^ 32 - v)

/-- The indices `i` of the loop `for (i = 0; i < 32; i++)` at which
`m.flags & (1 << i)` is not zero. -/
def flagBits (flags : Nat) : List Nat :=
  (List.range 32).filter (fun i => flags.testBit i)

/-- The text of lines 164 to 174: each set bit followed by a comma and a
space, then two backspaces, a space and a newline, or "-" and a newline when
no bit is set. -/
def flagsText (flags : Nat) : String :=
  String.join ((flagBits flags).map (fun i => fmt_d i ++ ", ")) ++
    (if flagBits flags ≠ [] then "\x08\x08 \n" else "-\n")

/-- The text of line 162. -/
def reportText (m : mach_header) : String :=
  "cpu type: " ++ toString m.cputype ++ "  cpu subtype: " ++ fmt_d m.cpusubtype ++
    " (" ++ getcpusubtype m.cpusubtype ++ ")  bit flags set: "

/-- The text of line 188. -/
def setText (m : mach_header) : String :=
  "set cpu subtype to: " ++ fmt_d m.cpusubtype ++ " (" ++
    getcpusubtype m.cpusubtype ++ ")\n"

/-! ## The run -/

/-- What a run depends on besides its arguments. -/
structure Env where
  /-- The constant `ULONG_MAX` of the platform. -/
  ULONG_MAX : Nat
  /-- Byte order of the host. -/
  bigEndian : Bool
  /-- Bytes of the file `argv[1]` names; `none` when `fopen(argv[1], "r+b")`
  fails. -/
  file : Option (List Byte)
  /-- Number of bytes the stream takes from the `fwrite` call of line 181:
  the value the call returns, capped at 28. -/
  fwriteCount : Nat
  /-- Number of bytes the stream gets into the file when its buffer is written
  out, by `fclose` at the latest. The stream is buffered: `fwrite` can return
  28 and the bytes reach the file later or not at all; `main` never looks at
  the result of `fclose`. -/
  flushCount : Nat

/-- The stdio calls on the target file. -/
inductive Call where
  | fopen (ok : Bool)
  | fread (count : Nat)
  | fseek
  | fwrite (count : Nat)
  | fclose
deriving DecidableEq, Repr

/-- What a run leaves behind. -/
structure Outcome where
  /-- Value `main` returns. -/
  exit : Nat
  /-- Bytes of the target file after the run. -/
  file : Option (List Byte)
  /-- Text written to standard output. -/
  out : String
  /-- Calls made on the target file, in order. -/
  calls : List Call
deriving DecidableEq, Repr

/-- The function `main`. The length of `argv` is `argc`. -/
def main (env : Env) (argv : List String) : Outcome :=
  if argv.length ≤ 2 then
    { exit := 1, file := env.file, out := "./ios-cpuhack <in> <new cpu subtype>\n",
      calls := [] }
  else
    -- line 128: f = fopen(argv[1], "r+b")
    let opened := [Call.fopen env.file.isSome]
    -- lines 129 to 140
    match resolve env.ULONG_MAX (argv.getD 2 "") with
    | none =>
      { exit := 1, file := env.file, out := "invalid cpu subtype given!\n",
        calls := opened }
    | some newcpusubtype =>
    -- line 142: if (!f)
    match env.file with
    | none =>
      { exit := 1, file := none, out := "opening file failed\n", calls := opened }
    | some bytes =>
    -- line 148: fread of 28 bytes from offset 0
    let got := bytes.take sizeof_mach_header
    match decode env.bigEndian got with
    | none =>
      { exit := 1, file := some bytes, out := "reading header failed",
        calls := opened ++ [Call.fread got.length, Call.fclose] }
    | some m =>
    -- line 155
    if m.magic ≠ MH_MAGIC then
      { exit := 1, file := some bytes, out := "invalid header magic\n",
        calls := opened ++ [Call.fread got.length, Call.fclose] }
    else
      let report := reportText m ++ flagsText m.flags
      -- line 176
      if m.cputype = CTM_ARM then
        let m1 := { m with cpusubtype := newcpusubtype }
        -- line 181: what `fwrite` returns
        let count := min env.fwriteCount sizeof_mach_header
        -- of the bytes the stream took, those that get into the file at offset 0
        let reached := min env.flushCount count
        let bytes1 := (encode env.bigEndian m1).take reached ++ bytes.drop reached
        if count ≠ sizeof_mach_header then
          { exit := 1, file := some bytes1, out := report ++ "writing header failed\n",
            calls := opened ++ [Call.fread got.length, Call.fseek, Call.fwrite count,
                                Call.fclose] }
        else
          { exit := 0, file := some bytes1, out := report ++ setText m1,
            calls := opened ++ [Call.fread got.length, Call.fseek, Call.fwrite count,
                                Call.fclose] }
      else
        { exit := 0, file := some bytes,
          out := report ++ "error: not an arm binary!\n",
          calls := opened ++ [Call.fread got.length, Call.fclose] }

/-! ## Notions the statements use -/

/-- Every field of the record is a 32-bit value. -/
def mach_header.inRange (m : mach_header) : Prop :=
  m.magic < 2 ^ 32 ∧ m.cputype < 2 ^ 32 ∧ m.cpusubtype < 2 ^ 32 ∧ m.filetype < 2 ^ 32 ∧
  m.ncmds < 2 ^ 32 ∧ m.sizeofcmds < 2 ^ 32 ∧ m.flags < 2 ^ 32

/-- The file with its bytes 8 to 11 replaced by those of the code `c`. -/
def withSubtypeBytes (be : Bool) (c : Nat) (bytes : List Byte) : List Byte :=
  bytes.take 8 ++ bytesOfU32 be c ++ bytes.drop 12

/-- The file when the first `k` bytes of the record with the new code `c`
have reached it and the rest is as before. -/
def flushedFile (be : Bool) (c : Nat) (k : Nat) (bytes : List Byte) : List Byte :=
  (withSubtypeBytes be c bytes).take k ++ bytes.drop k

/-- The first 32-bit field of a file, in the byte order of the host; `none`
for a file of fewer than four bytes. -/
def fileMagic (be : Bool) (bytes : List Byte) : Option Nat :=
  (readU32 be bytes).map Prod.fst

/-- The second 32-bit field of a file, in the byte order of the host; `none`
for a file of fewer than eight bytes. -/
def fileCputype (be : Bool) (bytes : List Byte) : Option Nat :=
  (readU32 be (bytes.drop 4)).map Prod.fst

/-! ## Sample inputs -/

/-- A little-endian ARM header (magic, cputype 12, cpusubtype 9, filetype 2,
ncmds 3, sizeofcmds 4, flags 0x85) followed by two more bytes. -/
def armFile : List Byte :=
  [0xCE, 0xFA, 0xED, 0xFE, 12, 0, 0, 0, 9, 0, 0, 0, 2, 0, 0, 0,
   3, 0, 0, 0, 4, 0, 0, 0, 0x85, 0, 0, 0, 0xAA, 0xBB]

/-- A 64-bit little-endian host on which `armFile` opens, `fwrite` takes all
28 bytes and all of them reach the file. -/
def armEnv : Env :=
  { ULONG_MAX := 2 ^ 64 - 1, bigEndian := false, file := some armFile, fwriteCount := 28,
    flushCount := 28 }

/-- The host of `armEnv` when `fwrite` takes all 28 bytes and none of them
reaches the file. -/
def armEnvNoFlush : Env := { armEnv with flushCount := 0 }

/-- The record `armFile` holds. -/
def armHeader : mach_header :=
  { magic := 0xFEEDFACE, cputype := 12, cpusubtype := 9, filetype := 2, ncmds := 3,
    sizeofcmds := 4, flags := 0x85 }

/-- A little-endian file of 28 bytes whose first field is 0xCAFEBABE. -/
def badMagicFile : List Byte :=
  [0xBE, 0xBA, 0xFE, 0xCA, 12, 0, 0, 0, 9, 0, 0, 0, 2, 0, 0, 0,
   3, 0, 0, 0, 4, 0, 0, 0, 0x85, 0, 0, 0]

/-- A little-endian file of 28 bytes with magic 0xFEEDFACE and cputype 7
(i386). -/
def i386File : List Byte :=
  [0xCE, 0xFA, 0xED, 0xFE, 7, 0, 0, 0, 3, 0, 0, 0, 2, 0, 0, 0,
   3, 0, 0, 0, 4, 0, 0, 0, 0, 0, 0, 0]

/-- The first twelve bytes of `i386File`: magic 0xFEEDFACE, cputype 7,
cpusubtype 3, and nothing after. -/
def truncatedFile : List Byte :=
  [0xCE, 0xFA, 0xED, 0xFE, 7, 0, 0, 0, 3, 0, 0, 0]

/-! ## Facts about the symbol table -/

theorem getcpusubtype_of_not_mem (c : Nat) (h : c ∉ knownCodes) :
    getcpusubtype c = UNKNOWN := by
  simp only [knownCodes, List.mem_cons, List.mem_singleton, List.not_mem_nil,
    or_false, not_or] at h
  obtain ⟨h0, h1, h2, h3, h4, h5, h6, h7, h8, h9, h10, h11⟩ := h
  unfold getcpusubtype CSARM_ALL CSARM_V4T CSARM_V6 CSARM_V5TEJ CSARM_XSCALE CSARM_V7
    CSARM_V7F CSARM_V7S CSARM_V7K CSARM_V6M CSARM_V7M CSARM_V7EM
  rw [if_neg h0, if_neg h1, if_neg h2, if_neg h3, if_neg h4, if_neg h5, if_neg h6,
    if_neg h7, if_neg h8, if_neg h9, if_neg h10, if_neg h11]

theorem getcpusubtype_eq_unknown_iff (c : Nat) :
    getcpusubtype c = UNKNOWN ↔ c ∉ knownCodes := by
  constructor
  · intro h hc
    simp only [knownCodes, List.mem_cons, List.mem_singleton, List.not_mem_nil,
      or_false] at hc
    rcases hc with rfl | rfl | rfl | rfl | rfl | rfl | rfl | rfl | rfl | rfl | rfl | rfl <;>
      exact absurd h (by decide)
  · exact getcpusubtype_of_not_mem c

theorem getcpusubtype_i_known (s : String) (h : getcpusubtype_i s ≠ NOT_FOUND) :
    getcpusubtype_i s ∈ knownCodes ∧ getcpusubtype (getcpusubtype_i s) = s := by
  by_cases h0 : s = "armall"
  · subst h0; exact ⟨by decide, by decide⟩
  by_cases h1 : s = "armv6"
  · subst h1; exact ⟨by decide, by decide⟩
  by_cases h2 : s = "armv5tej"
  · subst h2; exact ⟨by decide, by decide⟩
  by_cases h3 : s = "armxscale"
  · subst h3; exact ⟨by decide, by decide⟩
  by_cases h4 : s = "armv7"
  · subst h4; exact ⟨by decide, by decide⟩
  by_cases h5 : s = "armv7f"
  · subst h5; exact ⟨by decide, by decide⟩
  by_cases h6 : s = "armv7s"
  · subst h6; exact ⟨by decide, by decide⟩
  by_cases h7 : s = "armv7k"
  · subst h7; exact ⟨by decide, by decide⟩
  by_cases h8 : s = "armv6m"
  · subst h8; exact ⟨by decide, by decide⟩
  by_cases h9 : s = "armv7m"
  · subst h9; exact ⟨by decide, by decide⟩
  by_cases h10 : s = "armv7em"
  · subst h10; exact ⟨by decide, by decide⟩
  refine absurd ?_ h
  unfold getcpusubtype_i
  rw [if_neg h0, if_neg h1, if_neg h2, if_neg h3, if_neg h4, if_neg h5, if_neg h6,
    if_neg h7, if_neg h8, if_neg h9, if_neg h10]

theorem mem_knownCodes_lt (c : Nat) (h : c ∈ knownCodes) : c < 2 ^ 32 := by
  simp only [knownCodes, List.mem_cons, List.mem_singleton, List.not_mem_nil,
    or_false] at h
  omega

/-- The two ways `resolve` succeeds: by name, or through `isnumeric` and
`strtoul`. -/
theorem resolve_eq_some_iff (u : Nat) (s : String) (c : Nat) :
    resolve u s = some c ↔
      (getcpusubtype_i s ≠ NOT_FOUND ∧ c = getcpusubtype_i s) ∨
      (getcpusubtype_i s = NOT_FOUND ∧ isnumeric s ≠ 0 ∧
        c = strtoul u s.toList % 2 ^ 32 ∧ getcpusubtype c ≠ UNKNOWN) := by
  unfold resolve
  by_cases h1 : getcpusubtype_i s = NOT_FOUND
  · by_cases h2 : isnumeric s = 0
    · simp only [h1, h2, if_true, true_or, ne_eq, not_true_eq_false, false_and,
        and_false, or_false, reduceCtorEq]
    · by_cases h3 : getcpusubtype (strtoul u s.toList % 2 ^ 32) = UNKNOWN
      · simp only [h1, h2, h3, if_true, ne_eq, not_false_eq_true, or_true,
          not_true_eq_false, false_and, true_and, false_or, reduceCtorEq, false_iff,
          not_and]
        intro hc; subst hc; exact not_not.mpr h3
      · simp only [h1, h2, h3, if_true, ne_eq, not_false_eq_true, or_self, if_false,
          not_true_eq_false, false_and, true_and, false_or, Option.some.injEq]
        constructor
        · intro h; subst h; exact ⟨rfl, h3⟩
        · intro h; exact h.1.symm
  · simp only [h1, if_false, ne_eq, not_false_eq_true, true_and, false_and, or_false,
      Option.some.injEq]
    exact eq_comm

theorem resolve_some_known (u : Nat) (s : String) (c : Nat)
    (h : resolve u s = some c) : c ∈ knownCodes := by
  rcases (resolve_eq_some_iff u s c).mp h with ⟨h1, h2⟩ | ⟨_, _, _, h4⟩
  · rw [h2]; exact (getcpusubtype_i_known s h1).1
  · rw [ne_eq, getcpusubtype_eq_unknown_iff] at h4
    exact not_not.mp h4

/-! ## Facts about the header bytes -/

theorem u32OfBytes_lt (be : Bool) (a b c d : Byte) : u32OfBytes be a b c d < 2 ^ 32 := by
  have ha := a.isLt
  have hb := b.isLt
  have hc := c.isLt
  have hd := d.isLt
  cases be <;> simp only [u32OfBytes, if_true, if_false, Bool.false_eq_true] <;> omega

theorem bytesOfU32_u32OfBytes (be : Bool) (a b c d : Byte) :
    bytesOfU32 be (u32OfBytes be a b c d) = [a, b, c, d] := by
  have ha := a.isLt
  have hb := b.isLt
  have hc := c.isLt
  have hd := d.isLt
  cases be <;>
    simp only [bytesOfU32, u32OfBytes, byteOf, if_true, if_false, Bool.false_eq_true,
      List.cons.injEq, and_true, Fin.ext_iff] <;>
    omega

theorem bytesOfU32_length (be : Bool) (v : Nat) : (bytesOfU32 be v).length = 4 := by
  cases be <;> rfl

theorem readU32_bytesOfU32 (be : Bool) (v : Nat) (rest : List Byte) (h : v < 2 ^ 32) :
    readU32 be (bytesOfU32 be v ++ rest) = some (v, rest) := by
  cases be <;>
    simp only [bytesOfU32, readU32, u32OfBytes, byteOf, if_true, if_false,
      Bool.false_eq_true, List.cons_append, List.nil_append, Option.some.injEq,
      Prod.mk.injEq, and_true] <;>
    omega

theorem readU32_eq_some (be : Bool) (buf : List Byte) (v : Nat) (r : List Byte)
    (h : readU32 be buf = some (v, r)) :
    buf = bytesOfU32 be v ++ r ∧ v < 2 ^ 32 := by
  match buf, h with
  | a :: b :: c :: d :: rest, h =>
    simp only [readU32, Option.some.injEq, Prod.mk.injEq] at h
    obtain ⟨hv, hr⟩ := h
    subst hv hr
    rw [bytesOfU32_u32OfBytes]
    exact ⟨rfl, u32OfBytes_lt be a b c d⟩

theorem encode_length (be : Bool) (m : mach_header) : (encode be m).length = 28 := by
  simp only [encode, List.length_append, bytesOfU32_length]

/-- A buffer that reads as the record `m` starts with the 28 bytes of `m`: the
record is an overlay of the buffer. -/
theorem decode_eq_some (be : Bool) (buf : List Byte) (m : mach_header)
    (h : decode be buf = some m) :
    ∃ rest, buf = encode be m ++ rest ∧ m.inRange := by
  unfold decode at h
  split at h
  · exact absurd h (by simp)
  rename_i v0 r0 e0
  split at h
  · exact absurd h (by simp)
  rename_i v1 r1 e1
  split at h
  · exact absurd h (by simp)
  rename_i v2 r2 e2
  split at h
  · exact absurd h (by simp)
  rename_i v3 r3 e3
  split at h
  · exact absurd h (by simp)
  rename_i v4 r4 e4
  split at h
  · exact absurd h (by simp)
  rename_i v5 r5 e5
  split at h
  · exact absurd h (by simp)
  rename_i v6 r6 e6
  simp only [Option.some.injEq] at h
  subst h
  obtain ⟨h0, b0⟩ := readU32_eq_some be _ _ _ e0
  obtain ⟨h1, b1⟩ := readU32_eq_some be _ _ _ e1
  obtain ⟨h2, b2⟩ := readU32_eq_some be _ _ _ e2
  obtain ⟨h3, b3⟩ := readU32_eq_some be _ _ _ e3
  obtain ⟨h4, b4⟩ := readU32_eq_some be _ _ _ e4
  obtain ⟨h5, b5⟩ := readU32_eq_some be _ _ _ e5
  obtain ⟨h6, b6⟩ := readU32_eq_some be _ _ _ e6
  refine ⟨r6, ?_, b0, b1, b2, b3, b4, b5, b6⟩
  rw [h0, h1, h2, h3, h4, h5, h6]
  simp only [encode, List.append_assoc]

/-- Reading back the 28 bytes of a record gives the record. -/
theorem decode_encode (be : Bool) (m : mach_header) (rest : List Byte)
    (h : m.inRange) : decode be (encode be m ++ rest) = some m := by
  obtain ⟨b0, b1, b2, b3, b4, b5, b6⟩ := h
  simp only [decode, encode, List.append_assoc, readU32_bytesOfU32, b0, b1, b2, b3, b4,
    b5, b6]

theorem readU32_of_length (be : Bool) (buf : List Byte) (h : 4 ≤ buf.length) :
    ∃ v r, readU32 be buf = some (v, r) ∧ r.length + 4 = buf.length := by
  match buf, h with
  | a :: b :: c :: d :: rest, _ =>
    exact ⟨u32OfBytes be a b c d, rest, rfl, by simp only [List.length_cons]⟩

theorem decode_of_length (be : Bool) (buf : List Byte) (h : 28 ≤ buf.length) :
    ∃ m, decode be buf = some m := by
  obtain ⟨v0, r0, e0, l0⟩ := readU32_of_length be buf (by omega)
  obtain ⟨v1, r1, e1, l1⟩ := readU32_of_length be r0 (by omega)
  obtain ⟨v2, r2, e2, l2⟩ := readU32_of_length be r1 (by omega)
  obtain ⟨v3, r3, e3, l3⟩ := readU32_of_length be r2 (by omega)
  obtain ⟨v4, r4, e4, l4⟩ := readU32_of_length be r3 (by omega)
  obtain ⟨v5, r5, e5, l5⟩ := readU32_of_length be r4 (by omega)
  obtain ⟨v6, r6, e6, _⟩ := readU32_of_length be r5 (by omega)
  exact ⟨{ magic := v0, cputype := v1, cpusubtype := v2, filetype := v3, ncmds := v4,
            sizeofcmds := v5, flags := v6 },
    by simp only [decode, e0, e1, e2, e3, e4, e5, e6]⟩

theorem decode_eq_none_iff (be : Bool) (buf : List Byte) :
    decode be buf = none ↔ buf.length < 28 := by
  constructor
  · intro h
    by_contra hlen
    obtain ⟨m, hm⟩ := decode_of_length be buf (by omega)
    rw [h] at hm
    exact absurd hm (by simp)
  · intro hlen
    cases hd : decode be buf with
    | none => rfl
    | some m =>
      obtain ⟨rest, hb, _⟩ := decode_eq_some be buf m hd
      rw [hb, List.length_append, encode_length] at hlen
      omega

/-- The bytes `fread` delivers, the first 28 of the file, read as the same
record as the file itself. -/
theorem decode_take (be : Bool) (buf : List Byte) :
    decode be (buf.take sizeof_mach_header) = decode be buf := by
  cases hd : decode be buf with
  | none =>
    have hlen := (decode_eq_none_iff be buf).mp hd
    rw [List.take_of_length_le (by unfold sizeof_mach_header; omega)]
    exact hd
  | some m =>
    obtain ⟨rest, hb, hr⟩ := decode_eq_some be buf m hd
    rw [hb, show sizeof_mach_header = 28 from rfl, List.take_left' (encode_length be m)]
    simpa using decode_encode be m [] hr

/-- Storing a new `cpusubtype` changes bytes 8 to 11 of the record and no
other. -/
theorem encode_set_cpusubtype (be : Bool) (m : mach_header) (c : Nat)
    (rest : List Byte) :
    encode be { m with cpusubtype := c } ++ rest =
      (encode be m ++ rest).take 8 ++ bytesOfU32 be c ++ (encode be m ++ rest).drop 12 := by
  have h8 : (bytesOfU32 be m.magic ++ bytesOfU32 be m.cputype).length = 8 := by
    simp only [List.length_append, bytesOfU32_length]
  have h12 : (bytesOfU32 be m.magic ++ bytesOfU32 be m.cputype ++
      bytesOfU32 be m.cpusubtype).length = 12 := by
    simp only [List.length_append, bytesOfU32_length]
  have e1 : encode be m ++ rest =
      (bytesOfU32 be m.magic ++ bytesOfU32 be m.cputype) ++
        (bytesOfU32 be m.cpusubtype ++ (bytesOfU32 be m.filetype ++
          (bytesOfU32 be m.ncmds ++ (bytesOfU32 be m.sizeofcmds ++
            (bytesOfU32 be m.flags ++ rest))))) := by
    simp only [encode, List.append_assoc]
  have e2 : encode be m ++ rest =
      (bytesOfU32 be m.magic ++ bytesOfU32 be m.cputype ++ bytesOfU32 be m.cpusubtype) ++
        (bytesOfU32 be m.filetype ++
          (bytesOfU32 be m.ncmds ++ (bytesOfU32 be m.sizeofcmds ++
            (bytesOfU32 be m.flags ++ rest)))) := by
    simp only [encode, List.append_assoc]
  rw [show (encode be m ++ rest).take 8 = bytesOfU32 be m.magic ++ bytesOfU32 be m.cputype
        from by rw [e1]; exact List.take_left' h8,
      show (encode be m ++ rest).drop 12 = bytesOfU32 be m.filetype ++
          (bytesOfU32 be m.ncmds ++ (bytesOfU32 be m.sizeofcmds ++
            (bytesOfU32 be m.flags ++ rest)))
        from by rw [e2]; exact List.drop_left' h12]
  simp only [encode, List.append_assoc]

theorem withSubtypeBytes_length (be : Bool) (c : Nat) (bytes : List Byte)
    (h : 12 ≤ bytes.length) : (withSubtypeBytes be c bytes).length = bytes.length := by
  simp only [withSubtypeBytes, List.length_append, List.length_take, List.length_drop,
    bytesOfU32_length]
  omega

theorem withSubtypeBytes_getElem? (be : Bool) (c : Nat) (bytes : List Byte)
    (h : 12 ≤ bytes.length) (i : Nat) (hi : i < 8 ∨ 12 ≤ i) :
    (withSubtypeBytes be c bytes)[i]? = bytes[i]? := by
  unfold withSubtypeBytes
  rcases hi with hi | hi
  · rw [List.append_assoc, List.getElem?_append_left (by
      rw [List.length_take]; omega)]
    rw [List.getElem?_take_of_lt hi]
  · have hl : (bytes.take 8 ++ bytesOfU32 be c).length = 12 := by
      rw [List.length_append, List.length_take, bytesOfU32_length]; omega
    rw [List.getElem?_append_right (by omega), hl, List.getElem?_drop]
    congr 1
    omega

theorem withSubtypeBytes_take (be : Bool) (c : Nat) (bytes : List Byte)
    (h : 12 ≤ bytes.length) : (withSubtypeBytes be c bytes).take 8 = bytes.take 8 := by
  have h8 : (bytes.take 8).length = 8 := by rw [List.length_take]; omega
  rw [withSubtypeBytes, List.append_assoc, List.take_left' h8]

theorem withSubtypeBytes_drop (be : Bool) (c : Nat) (bytes : List Byte)
    (h : 12 ≤ bytes.length) : (withSubtypeBytes be c bytes).drop 12 = bytes.drop 12 := by
  have h12 : (bytes.take 8 ++ bytesOfU32 be c).length = 12 := by
    rw [List.length_append, List.length_take, bytesOfU32_length]; omega
  rw [withSubtypeBytes, List.drop_left' h12]

/-- Entry `i` of a list made of the first `k` entries of `w` and the entries
of `b` from `k` on. -/
theorem overlay_getElem? {α : Type} (w b : List α) (k i : Nat) (hk : k ≤ w.length) :
    (w.take k ++ b.drop k)[i]? = if i < k then w[i]? else b[i]? := by
  have hl : (w.take k).length = k := by rw [List.length_take]; omega
  by_cases hi : i < k
  · rw [if_pos hi, List.getElem?_append_left (by omega), List.getElem?_take_of_lt hi]
  · rw [if_neg hi, List.getElem?_append_right (by omega), hl, List.getElem?_drop]
    congr 1
    omega

theorem flushedFile_length (be : Bool) (c k : Nat) (bytes : List Byte)
    (h : 12 ≤ bytes.length) (hk : k ≤ bytes.length) :
    (flushedFile be c k bytes).length = bytes.length := by
  simp only [flushedFile, List.length_append, List.length_take, List.length_drop,
    withSubtypeBytes_length be c bytes h]
  omega

/-- Whatever part of the record reaches the file, the bytes outside 8..11 are
those of the original. -/
theorem flushedFile_getElem? (be : Bool) (c k : Nat) (bytes : List Byte)
    (h : 12 ≤ bytes.length) (hk : k ≤ bytes.length) (i : Nat) (hi : i < 8 ∨ 12 ≤ i) :
    (flushedFile be c k bytes)[i]? = bytes[i]? := by
  rw [flushedFile, overlay_getElem? _ _ _ _ (by rw [withSubtypeBytes_length be c bytes h]; exact hk)]
  by_cases hik : i < k
  · rw [if_pos hik]; exact withSubtypeBytes_getElem? be c bytes h i hi
  · rw [if_neg hik]

theorem flushedFile_drop (be : Bool) (c k : Nat) (bytes : List Byte)
    (h : 12 ≤ bytes.length) (hk : k ≤ bytes.length) :
    (flushedFile be c k bytes).drop k = bytes.drop k := by
  have hl : ((withSubtypeBytes be c bytes).take k).length = k := by
    rw [List.length_take, withSubtypeBytes_length be c bytes h]; omega
  rw [flushedFile, List.drop_left' hl]

/-- Once the first twelve bytes of the record have reached the file, the file
is the patched one. -/
theorem flushedFile_of_le (be : Bool) (c k : Nat) (bytes : List Byte)
    (h : 12 ≤ bytes.length) (hk : 12 ≤ k) :
    flushedFile be c k bytes = withSubtypeBytes be c bytes := by
  have e : bytes.drop k = (withSubtypeBytes be c bytes).drop k := by
    apply List.ext_getElem?
    intro n
    rw [List.getElem?_drop, List.getElem?_drop,
      withSubtypeBytes_getElem? be c bytes h (k + n) (Or.inr (by omega))]
  rw [flushedFile, e, List.take_append_drop]

theorem list_length_four {α : Type} (y : List α) (h : y.length = 4) :
    ∃ a b c d, y = [a, b, c, d] := by
  match y, h with
  | [a, b, c, d], _ => exact ⟨a, b, c, d, rfl⟩

/-- Whatever part of the record reaches the file, the file is the original
with some 32-bit value in its cpusubtype field. -/
theorem flushedFile_eq_withSubtypeBytes (be : Bool) (c k : Nat) (bytes : List Byte)
    (h : 12 ≤ bytes.length) (hk : k ≤ bytes.length) :
    ∃ x, x < 2 ^ 32 ∧ flushedFile be c k bytes = withSubtypeBytes be x bytes := by
  have hlen := flushedFile_length be c k bytes h hk
  have e8 : (flushedFile be c k bytes).take 8 = bytes.take 8 := by
    apply List.ext_getElem?
    intro n
    rw [List.getElem?_take, List.getElem?_take]
    by_cases hn : n < 8
    · rw [if_pos hn, if_pos hn, flushedFile_getElem? be c k bytes h hk n (Or.inl hn)]
    · rw [if_neg hn, if_neg hn]
  have e12 : (flushedFile be c k bytes).drop 12 = bytes.drop 12 := by
    apply List.ext_getElem?
    intro n
    rw [List.getElem?_drop, List.getElem?_drop,
      flushedFile_getElem? be c k bytes h hk (12 + n) (Or.inr (by omega))]
  have hy : (((flushedFile be c k bytes).drop 8).take 4).length = 4 := by
    rw [List.length_take, List.length_drop, hlen]; omega
  obtain ⟨a, b, c1, d, hy4⟩ := list_length_four _ hy
  have hsplit : flushedFile be c k bytes =
      (flushedFile be c k bytes).take 8 ++
        (((flushedFile be c k bytes).drop 8).take 4 ++ (flushedFile be c k bytes).drop 12) := by
    conv_lhs => rw [← List.take_append_drop 8 (flushedFile be c k bytes)]
    conv_lhs =>
      rw [← List.take_append_drop 4 ((flushedFile be c k bytes).drop 8), List.drop_drop]
  refine ⟨u32OfBytes be a b c1 d, u32OfBytes_lt be a b c1 d, ?_⟩
  rw [hsplit, e8, e12, hy4, withSubtypeBytes, bytesOfU32_u32OfBytes, List.append_assoc]

/-! ## The paths of `main` -/

theorem main_usage (env : Env) (argv : List String) (h : argv.length ≤ 2) :
    main env argv =
      { exit := 1, file := env.file, out := "./ios-cpuhack <in> <new cpu subtype>\n",
        calls := [] } := by
  unfold main
  rw [if_pos h]

theorem main_invalid_subtype (env : Env) (argv : List String) (hargs : 2 < argv.length)
    (hres : resolve env.ULONG_MAX (argv.getD 2 "") = none) :
    main env argv =
      { exit := 1, file := env.file, out := "invalid cpu subtype given!\n",
        calls := [Call.fopen env.file.isSome] } := by
  unfold main
  rw [if_neg (by omega)]
  simp only [hres]

theorem main_open_failed (env : Env) (argv : List String) (c : Nat)
    (hargs : 2 < argv.length)
    (hres : resolve env.ULONG_MAX (argv.getD 2 "") = some c) (hfile : env.file = none) :
    main env argv =
      { exit := 1, file := none, out := "opening file failed\n",
        calls := [Call.fopen false] } := by
  unfold main
  rw [if_neg (by omega)]
  simp only [hres, hfile, Option.isSome_none]

theorem main_short_read (env : Env) (argv : List String) (c : Nat) (bytes : List Byte)
    (hargs : 2 < argv.length)
    (hres : resolve env.ULONG_MAX (argv.getD 2 "") = some c)
    (hfile : env.file = some bytes) (hlen : bytes.length < 28) :
    main env argv =
      { exit := 1, file := some bytes, out := "reading header failed",
        calls := [Call.fopen true, Call.fread bytes.length, Call.fclose] } := by
  unfold main
  rw [if_neg (by omega)]
  have hd : decode env.bigEndian bytes = none := (decode_eq_none_iff _ _).mpr hlen
  have ht : bytes.take sizeof_mach_header = bytes :=
    List.take_of_length_le (by unfold sizeof_mach_header; omega)
  simp only [hres, hfile, ht, hd, Option.isSome_some, List.singleton_append]

theorem length_take_header (be : Bool) (bytes : List Byte) (m : mach_header)
    (hdec : decode be bytes = some m) :
    (bytes.take sizeof_mach_header).length = 28 := by
  obtain ⟨rest, hb, _⟩ := decode_eq_some be bytes m hdec
  rw [hb, show sizeof_mach_header = 28 from rfl, List.take_left' (encode_length be m),
    encode_length]

theorem main_invalid_magic (env : Env) (argv : List String) (c : Nat) (bytes : List Byte)
    (m : mach_header) (hargs : 2 < argv.length)
    (hres : resolve env.ULONG_MAX (argv.getD 2 "") = some c)
    (hfile : env.file = some bytes) (hdec : decode env.bigEndian bytes = some m)
    (hmagic : m.magic ≠ MH_MAGIC) :
    main env argv =
      { exit := 1, file := some bytes, out := "invalid header magic\n",
        calls := [Call.fopen true, Call.fread 28, Call.fclose] } := by
  unfold main
  rw [if_neg (by omega)]
  simp only [hres, hfile, decode_take, hdec, length_take_header _ _ _ hdec, hmagic,
    ne_eq, not_false_eq_true, if_true, Option.isSome_some, List.singleton_append]

theorem main_not_arm (env : Env) (argv : List String) (c : Nat) (bytes : List Byte)
    (m : mach_header) (hargs : 2 < argv.length)
    (hres : resolve env.ULONG_MAX (argv.getD 2 "") = some c)
    (hfile : env.file = some bytes) (hdec : decode env.bigEndian bytes = some m)
    (hmagic : m.magic = MH_MAGIC) (harm : m.cputype ≠ CTM_ARM) :
    main env argv =
      { exit := 0, file := some bytes,
        out := reportText m ++ flagsText m.flags ++ "error: not an arm binary!\n",
        calls := [Call.fopen true, Call.fread 28, Call.fclose] } := by
  unfold main
  rw [if_neg (by omega)]
  simp only [hres, hfile, decode_take, hdec, length_take_header _ _ _ hdec, hmagic,
    harm, ne_eq, not_true_eq_false, if_false, Option.isSome_some, List.singleton_append]

theorem encode_take_flushed (be : Bool) (bytes : List Byte) (m : mach_header)
    (c k : Nat) (hdec : decode be bytes = some m) (hk : k ≤ 28) :
    (encode be { m with cpusubtype := c }).take k ++ bytes.drop k =
      flushedFile be c k bytes := by
  obtain ⟨rest, hb, _⟩ := decode_eq_some be bytes m hdec
  have hW : encode be { m with cpusubtype := c } ++ rest = withSubtypeBytes be c bytes := by
    rw [encode_set_cpusubtype, ← hb, withSubtypeBytes]
  rw [flushedFile, ← hW, List.take_append_of_le_length (by rw [encode_length]; exact hk)]

theorem length_of_decode (be : Bool) (bytes : List Byte) (m : mach_header)
    (hdec : decode be bytes = some m) : 28 ≤ bytes.length := by
  by_contra hl
  have := (decode_eq_none_iff be bytes).mpr (by omega)
  rw [hdec] at this
  exact absurd this (by simp)

/-- The run that patches: `fwrite` returns 28, `main` prints the confirmation
and returns 0; of the record, the first `min flushCount 28` bytes are in the
file. -/
theorem main_patched (env : Env) (argv : List String) (c : Nat) (bytes : List Byte)
    (m : mach_header) (hargs : 2 < argv.length)
    (hres : resolve env.ULONG_MAX (argv.getD 2 "") = some c)
    (hfile : env.file = some bytes) (hdec : decode env.bigEndian bytes = some m)
    (hmagic : m.magic = MH_MAGIC) (harm : m.cputype = CTM_ARM)
    (hw : 28 ≤ env.fwriteCount) :
    main env argv =
      { exit := 0,
        file := some (flushedFile env.bigEndian c (min env.flushCount 28) bytes),
        out := reportText m ++ flagsText m.flags ++ setText { m with cpusubtype := c },
        calls := [Call.fopen true, Call.fread 28, Call.fseek, Call.fwrite 28,
                  Call.fclose] } := by
  unfold main
  rw [if_neg (by omega)]
  have hmin : min env.fwriteCount sizeof_mach_header = sizeof_mach_header := by
    unfold sizeof_mach_header; omega
  have hfile1 := encode_take_flushed env.bigEndian bytes m c
    (min env.flushCount sizeof_mach_header) hdec (by unfold sizeof_mach_header; omega)
  rw [hmagic, harm] at hfile1
  simp only [hres, hfile, decode_take, hdec, length_take_header _ _ _ hdec, hmagic,
    harm, hmin, hfile1, ne_eq, not_true_eq_false, if_false, if_true, Option.isSome_some,
    List.singleton_append]
  rfl

/-- The run that patches, when at least the first twelve bytes of the record
reach the file: the file is the original with the bytes of the new code at
offsets 8 to 11. -/
theorem main_patched_flushed (env : Env) (argv : List String) (c : Nat)
    (bytes : List Byte) (m : mach_header) (hargs : 2 < argv.length)
    (hres : resolve env.ULONG_MAX (argv.getD 2 "") = some c)
    (hfile : env.file = some bytes) (hdec : decode env.bigEndian bytes = some m)
    (hmagic : m.magic = MH_MAGIC) (harm : m.cputype = CTM_ARM)
    (hw : 28 ≤ env.fwriteCount) (hflush : 12 ≤ env.flushCount) :
    main env argv =
      { exit := 0, file := some (withSubtypeBytes env.bigEndian c bytes),
        out := reportText m ++ flagsText m.flags ++ setText { m with cpusubtype := c },
        calls := [Call.fopen true, Call.fread 28, Call.fseek, Call.fwrite 28,
                  Call.fclose] } := by
  have hlen := length_of_decode _ _ _ hdec
  rw [main_patched env argv c bytes m hargs hres hfile hdec hmagic harm hw,
    flushedFile_of_le _ _ _ _ (by omega) (by omega)]

theorem main_short_write (env : Env) (argv : List String) (c : Nat) (bytes : List Byte)
    (m : mach_header) (hargs : 2 < argv.length)
    (hres : resolve env.ULONG_MAX (argv.getD 2 "") = some c)
    (hfile : env.file = some bytes) (hdec : decode env.bigEndian bytes = some m)
    (hmagic : m.magic = MH_MAGIC) (harm : m.cputype = CTM_ARM)
    (hw : env.fwriteCount < 28) :
    (main env argv).exit = 1 ∧
    (main env argv).calls = [Call.fopen true, Call.fread 28, Call.fseek,
      Call.fwrite env.fwriteCount, Call.fclose] := by
  unfold main
  rw [if_neg (by omega)]
  have hmin : min env.fwriteCount sizeof_mach_header = env.fwriteCount := by
    unfold sizeof_mach_header; omega
  have hne : ¬ env.fwriteCount = sizeof_mach_header := by
    unfold sizeof_mach_header; omega
  simp only [hres, hfile, decode_take, hdec, length_take_header _ _ _ hdec, hmagic,
    harm, hmin, hne, ne_eq, not_true_eq_false, not_false_eq_true, if_false, if_true,
    Option.isSome_some, List.singleton_append, and_self]

theorem resolve_none_of_not_numeric (u : Nat) (s : String)
    (h1 : getcpusubtype_i s = NOT_FOUND) (h2 : isnumeric s = 0) : resolve u s = none := by
  cases hr : resolve u s with
  | none => rfl
  | some c =>
    rcases (resolve_eq_some_iff u s c).mp hr with ⟨h, _⟩ | ⟨_, h, _⟩
    · exact absurd h1 h
    · exact absurd h2 h

theorem strtoul_nil (u : Nat) : strtoul u [] = 0 := by
  simp [strtoul, digitsValue]

theorem fileMagic_of_decode (be : Bool) (bytes : List Byte) (m : mach_header)
    (h : decode be bytes = some m) : fileMagic be bytes = some m.magic := by
  obtain ⟨rest, hb, hr⟩ := decode_eq_some be bytes m h
  rw [hb, fileMagic]
  simp only [encode, List.append_assoc, readU32_bytesOfU32 be m.magic _ hr.1,
    Option.map_some']

theorem fileCputype_of_decode (be : Bool) (bytes : List Byte) (m : mach_header)
    (h : decode be bytes = some m) : fileCputype be bytes = some m.cputype := by
  obtain ⟨rest, hb, hr⟩ := decode_eq_some be bytes m h
  rw [hb, fileCputype]
  simp only [encode, List.append_assoc, List.drop_left' (bytesOfU32_length be m.magic),
    readU32_bytesOfU32 be m.cputype _ hr.2.1, Option.map_some']

theorem decode_withSubtypeBytes (be : Bool) (bytes : List Byte) (m : mach_header)
    (c : Nat) (h : decode be bytes = some m) (hc : c < 2 ^ 32) :
    decode be (withSubtypeBytes be c bytes) = some { m with cpusubtype := c } := by
  obtain ⟨rest, hb, h0, h1, _, h3, h4, h5, h6⟩ := decode_eq_some be bytes m h
  rw [withSubtypeBytes, hb, ← encode_set_cpusubtype]
  exact decode_encode be _ rest ⟨h0, h1, hc, h3, h4, h5, h6⟩

theorem decode_armFile : decode false armFile = some armHeader := by decide

theorem getcpusubtype_i_of_name (s : String) (hs : s ∈ knownNames) (hne : s ≠ "armv4t") :
    getcpusubtype_i s ≠ NOT_FOUND := by
  simp only [knownNames, List.mem_cons, List.mem_singleton, List.not_mem_nil,
    or_false] at hs
  rcases hs with rfl | rfl | rfl | rfl | rfl | rfl | rfl | rfl | rfl | rfl | rfl | rfl
  case inr.inl => exact absurd rfl hne
  all_goals decide

/-- With any of the eleven names `getcpusubtype_i` compares against, the run
on a file that holds a full ARM header exits 0 and, when the bytes written
reach the file, the header of the resulting file differs from the original in
its cpusubtype only, which is the code of the name. -/
theorem patch_by_name (env : Env) (argv : List String) (bytes : List Byte)
    (m : mach_header) (hargs : 2 < argv.length)
    (hs : argv.getD 2 "" ∈ knownNames) (hne : argv.getD 2 "" ≠ "armv4t")
    (hfile : env.file = some bytes) (hdec : decode env.bigEndian bytes = some m)
    (hmagic : m.magic = MH_MAGIC) (harm : m.cputype = CTM_ARM)
    (hw : 28 ≤ env.fwriteCount) (hflush : 12 ≤ env.flushCount) :
    (main env argv).exit = 0 ∧
    getcpusubtype (getcpusubtype_i (argv.getD 2 "")) = argv.getD 2 "" ∧
    ∃ bytes1, (main env argv).file = some bytes1 ∧
      decode env.bigEndian bytes1 =
        some { m with cpusubtype := getcpusubtype_i (argv.getD 2 "") } := by
  have hnf := getcpusubtype_i_of_name _ hs hne
  have hk := getcpusubtype_i_known _ hnf
  have hres : resolve env.ULONG_MAX (argv.getD 2 "") = some (getcpusubtype_i (argv.getD 2 "")) :=
    (resolve_eq_some_iff _ _ _).mpr (Or.inl ⟨hnf, rfl⟩)
  rw [main_patched_flushed env argv _ bytes m hargs hres hfile hdec hmagic harm hw hflush]
  exact ⟨rfl, hk.2, _, rfl,
    decode_withSubtypeBytes _ _ _ _ hdec (mem_knownCodes_lt _ hk.1)⟩

/-! ## The claims -/

/-- C1, at the code 5 where it fails: `getcpusubtype` renders the known code 5
as "armv4t", `getcpusubtype_i` has no comparison against that name and returns
the not-found value for it; 5 is the only known code whose round trip fails. -/
theorem roundtrip_fails_at_armv4t :
    5 ∈ knownCodes ∧ getcpusubtype 5 = "armv4t" ∧
    getcpusubtype_i (getcpusubtype 5) = NOT_FOUND ∧
    knownCodes.filter (fun c => getcpusubtype_i (getcpusubtype c) != c) = [5] := by
  decide

/-- C2, at the name "armv4t" where it fails: on a file that starts with a
valid ARM header, with every write going through, the run with the subtype
argument "armv4t" prints "invalid cpu subtype given!", exits 1 and leaves the
file as it was (cpusubtype still 9, not 5). -/
theorem armv4t_argument_rejected :
    "armv4t" ∈ knownNames ∧ getcpusubtype CSARM_V4T = "armv4t" ∧
    decode armEnv.bigEndian armFile = some armHeader ∧
    armHeader.magic = MH_MAGIC ∧ armHeader.cputype = CTM_ARM ∧
    main armEnv ["ios-cpuhack", "a.out", "armv4t"] =
      { exit := 1, file := some armFile, out := "invalid cpu subtype given!\n",
        calls := [Call.fopen true] } := by
  decide

/-- C3: when a run patches (the subtype argument resolves, the file holds a
full header with magic 0xFEEDFACE and cputype 12, and `fwrite` takes all 28
bytes), the resulting file has the length of the original and the same byte
as the original at every offset outside 8..11, whatever part of the bytes
written reaches the file. -/
theorem patch_changes_only_subtype_bytes (env : Env) (argv : List String) (c : Nat)
    (bytes : List Byte) (m : mach_header) (hargs : 2 < argv.length)
    (hres : resolve env.ULONG_MAX (argv.getD 2 "") = some c)
    (hfile : env.file = some bytes) (hlen : 28 ≤ bytes.length)
    (hdec : decode env.bigEndian bytes = some m)
    (hmagic : m.magic = MH_MAGIC) (harm : m.cputype = CTM_ARM)
    (hw : 28 ≤ env.fwriteCount) :
    ∃ bytes1, (main env argv).file = some bytes1 ∧ bytes1.length = bytes.length ∧
      ∀ i, i < 8 ∨ 12 ≤ i → bytes1[i]? = bytes[i]? := by
  rw [main_patched env argv c bytes m hargs hres hfile hdec hmagic harm hw]
  exact ⟨_, rfl, flushedFile_length _ _ _ _ (by omega) (by omega),
    fun i hi => flushedFile_getElem? _ _ _ _ (by omega) (by omega) i hi⟩

theorem patch_changes_only_subtype_bytes_witness :
    ∃ bytes1, (main armEnv ["ios-cpuhack", "a.out", "armv7s"]).file = some bytes1 ∧
      bytes1.length = armFile.length ∧
      ∀ i, i < 8 ∨ 12 ≤ i → bytes1[i]? = armFile[i]? :=
  patch_changes_only_subtype_bytes armEnv ["ios-cpuhack", "a.out", "armv7s"] 11 armFile
    armHeader (by decide) (by decide) rfl (by decide) (by decide) (by decide) (by decide)
    (by decide)

/-- C4: for every file whose first 32-bit field is not 0xFEEDFACE, whatever
the arguments, the run makes no `fwrite` call, leaves the bytes of the file
as they were and exits 1. -/
theorem invalid_magic_never_written (env : Env) (argv : List String)
    (bytes : List Byte) (hfile : env.file = some bytes)
    (hmagic : fileMagic env.bigEndian bytes ≠ some MH_MAGIC) :
    (main env argv).exit = 1 ∧ (main env argv).file = some bytes ∧
      ∀ n, Call.fwrite n ∉ (main env argv).calls := by
  by_cases hargs : argv.length ≤ 2
  · rw [main_usage env argv hargs, hfile]
    exact ⟨rfl, rfl, fun n hn => by simp at hn⟩
  cases hres : resolve env.ULONG_MAX (argv.getD 2 "") with
  | none =>
    rw [main_invalid_subtype env argv (by omega) hres, hfile]
    exact ⟨rfl, rfl, fun n hn => by simp at hn⟩
  | some c =>
    cases hdec : decode env.bigEndian bytes with
    | none =>
      rw [main_short_read env argv c bytes (by omega) hres hfile
        ((decode_eq_none_iff _ _).mp hdec)]
      exact ⟨rfl, rfl, fun n hn => by simp at hn⟩
    | some m =>
      have hm : m.magic ≠ MH_MAGIC := by
        intro h
        rw [fileMagic_of_decode _ _ _ hdec, h] at hmagic
        exact hmagic rfl
      rw [main_invalid_magic env argv c bytes m (by omega) hres hfile hdec hm]
      exact ⟨rfl, rfl, fun n hn => by simp at hn⟩

theorem invalid_magic_never_written_witness :
    (main { armEnv with file := some badMagicFile } ["ios-cpuhack", "a.out", "armv7"]).exit = 1 ∧
    (main { armEnv with file := some badMagicFile } ["ios-cpuhack", "a.out", "armv7"]).file
      = some badMagicFile ∧
    ∀ n, Call.fwrite n ∉
      (main { armEnv with file := some badMagicFile } ["ios-cpuhack", "a.out", "armv7"]).calls :=
  invalid_magic_never_written { armEnv with file := some badMagicFile }
    ["ios-cpuhack", "a.out", "armv7"] badMagicFile rfl (by decide)

/-- C5 as stated fails: a file of twelve bytes has a valid magic and cputype 7,
the subtype argument "armv7" resolves, and the run exits 1, not 0: the header
cannot be read in full and line 148 returns before the cputype is looked
at. -/
theorem truncated_non_arm_file_exits_1 :
    fileMagic false truncatedFile = some MH_MAGIC ∧
    fileCputype false truncatedFile = some 7 ∧
    resolve armEnv.ULONG_MAX "armv7" = some 9 ∧
    main { armEnv with file := some truncatedFile } ["ios-cpuhack", "a.out", "armv7"] =
      { exit := 1, file := some truncatedFile, out := "reading header failed",
        calls := [Call.fopen true, Call.fread 12, Call.fclose] } := by
  decide

/-- C5, amended: for every file of at least 28 bytes with magic 0xFEEDFACE
whose cputype is not 12, and every subtype argument that resolves, the run
makes no `fwrite` call, leaves the bytes of the file as they were and exits
0. -/
theorem non_arm_never_written (env : Env) (argv : List String) (c : Nat)
    (bytes : List Byte) (hargs : 2 < argv.length)
    (hres : resolve env.ULONG_MAX (argv.getD 2 "") = some c)
    (hfile : env.file = some bytes) (hlen : 28 ≤ bytes.length)
    (hmagic : fileMagic env.bigEndian bytes = some MH_MAGIC)
    (harm : fileCputype env.bigEndian bytes ≠ some CTM_ARM) :
    (main env argv).exit = 0 ∧ (main env argv).file = some bytes ∧
      ∀ n, Call.fwrite n ∉ (main env argv).calls := by
  obtain ⟨m, hdec⟩ := decode_of_length env.bigEndian bytes hlen
  rw [fileMagic_of_decode _ _ _ hdec, Option.some.injEq] at hmagic
  rw [fileCputype_of_decode _ _ _ hdec, ne_eq, Option.some.injEq] at harm
  rw [main_not_arm env argv c bytes m hargs hres hfile hdec hmagic harm]
  exact ⟨rfl, rfl, fun n hn => by simp at hn⟩

theorem non_arm_never_written_witness :
    (main { armEnv with file := some i386File } ["ios-cpuhack", "a.out", "armv7"]).exit = 0 ∧
    (main { armEnv with file := some i386File } ["ios-cpuhack", "a.out", "armv7"]).file
      = some i386File ∧
    ∀ n, Call.fwrite n ∉
      (main { armEnv with file := some i386File } ["ios-cpuhack", "a.out", "armv7"]).calls :=
  non_arm_never_written { armEnv with file := some i386File }
    ["ios-cpuhack", "a.out", "armv7"] 9 i386File (by decide) (by decide) rfl
    (by decide) (by decide) (by decide)

/-- C6, at the numerals where it fails: "0", "9" and "10" are the numerals of
known codes, `isnumeric` returns 0 for each (it turns down the characters '0'
and '9'), so none of them resolves, on any platform, and the run with "0"
exits 1; they are the only numerals of known codes that do not resolve to
their code. -/
theorem numerals_0_9_10_rejected :
    isnumeric "0" = 0 ∧ isnumeric "9" = 0 ∧ isnumeric "10" = 0 ∧
    (∀ u, resolve u "0" = none ∧ resolve u "9" = none ∧ resolve u "10" = none) ∧
    main armEnv ["ios-cpuhack", "a.out", "0"] =
      { exit := 1, file := some armFile, out := "invalid cpu subtype given!\n",
        calls := [Call.fopen true] } ∧
    knownCodes.filter (fun c => resolve (2 ^ 32 - 1) (toString c) != some c) = [0, 9, 10] ∧
    knownCodes.filter (fun c => resolve (2 ^ 64 - 1) (toString c) != some c) = [0, 9, 10] :=
  ⟨by decide, by decide, by decide,
   fun u => ⟨resolve_none_of_not_numeric u "0" (by decide) (by decide),
             resolve_none_of_not_numeric u "9" (by decide) (by decide),
             resolve_none_of_not_numeric u "10" (by decide) (by decide)⟩,
   by decide, by decide, by decide⟩

/-- C7, at the empty string where it fails: the empty string is neither a
subtype name nor the numeral of a known code, yet it resolves to 0 on every
platform (`isnumeric` returns 1 for it and `strtoul` returns 0), and the run
with it on an ARM file exits 0 with the cpusubtype bytes set to 0. Where
`unsigned long` has 64 bits the numeral "21474836485" resolves too, to 5. -/
theorem empty_argument_accepted :
    "" ∉ knownNames ∧ "" ∉ knownCodes.map toString ∧
    (∀ u, resolve u "" = some 0) ∧
    (main armEnv ["ios-cpuhack", "a.out", ""]).exit = 0 ∧
    (main armEnv ["ios-cpuhack", "a.out", ""]).file =
      some (withSubtypeBytes false 0 armFile) ∧
    "21474836485" ∉ knownNames ∧ "21474836485" ∉ knownCodes.map toString ∧
    resolve (2 ^ 64 - 1) "21474836485" = some 5 := by
  refine ⟨by decide, by decide, fun u => ?_, by decide, by decide, by decide, by decide,
    by decide⟩
  refine (resolve_eq_some_iff u "" 0).mpr (Or.inr ⟨by decide, by decide, ?_, by decide⟩)
  rw [show ("" : String).toList = [] from rfl, strtoul_nil]
  exact (Nat.zero_mod _).symm

/-- C8: whenever the subtype argument resolves, by name or through
`strtoul` and the conversion to 32 bits, the code it resolves to is a 32-bit
value of the known set and `getcpusubtype` does not render it as "unknown";
and in every run that patches (full header, magic 0xFEEDFACE, cputype 12,
`fwrite` of all 28 bytes) what reaches the file is a leading part of the
record with that code in it, so that once the first twelve bytes have reached
it the header of the resulting file holds that code as its cpusubtype. -/
theorem resolved_code_is_known (env : Env) (argv : List String) (c : Nat)
    (hres : resolve env.ULONG_MAX (argv.getD 2 "") = some c) :
    c < 2 ^ 32 ∧ c ∈ knownCodes ∧ getcpusubtype c ≠ UNKNOWN ∧
    ∀ bytes m, 2 < argv.length → env.file = some bytes →
      decode env.bigEndian bytes = some m → m.magic = MH_MAGIC → m.cputype = CTM_ARM →
      28 ≤ env.fwriteCount →
      (main env argv).file =
        some (flushedFile env.bigEndian c (min env.flushCount 28) bytes) ∧
      (12 ≤ env.flushCount →
        ∃ bytes1 m1, (main env argv).file = some bytes1 ∧
          decode env.bigEndian bytes1 = some m1 ∧ m1.cpusubtype = c) := by
  have hk := resolve_some_known _ _ _ hres
  have hlt := mem_knownCodes_lt c hk
  refine ⟨hlt, hk, ?_, ?_⟩
  · rw [ne_eq, getcpusubtype_eq_unknown_iff]
    exact not_not.mpr hk
  · intro bytes m hargs hfile hdec hmagic harm hw
    refine ⟨?_, fun hflush => ?_⟩
    · rw [main_patched env argv c bytes m hargs hres hfile hdec hmagic harm hw]
    · rw [main_patched_flushed env argv c bytes m hargs hres hfile hdec hmagic harm hw
        hflush]
      exact ⟨_, _, rfl, decode_withSubtypeBytes _ _ _ _ hdec hlt, rfl⟩

theorem resolved_code_is_known_witness :
    5 < 2 ^ 32 ∧ 5 ∈ knownCodes ∧ getcpusubtype 5 ≠ UNKNOWN ∧
    ∀ bytes m, 2 < ["ios-cpuhack", "a.out", "21474836485"].length →
      armEnv.file = some bytes →
      decode armEnv.bigEndian bytes = some m → m.magic = MH_MAGIC → m.cputype = CTM_ARM →
      28 ≤ armEnv.fwriteCount →
      (main armEnv ["ios-cpuhack", "a.out", "21474836485"]).file =
        some (flushedFile armEnv.bigEndian 5 (min armEnv.flushCount 28) bytes) ∧
      (12 ≤ armEnv.flushCount →
        ∃ bytes1 m1,
          (main armEnv ["ios-cpuhack", "a.out", "21474836485"]).file = some bytes1 ∧
          decode armEnv.bigEndian bytes1 = some m1 ∧ m1.cpusubtype = 5) :=
  resolved_code_is_known armEnv ["ios-cpuhack", "a.out", "21474836485"] 5 (by decide)

/-- C9 as stated fails: with the subtype argument "9999", which does not
resolve, the run exits 1 but has called `fopen` on the file, and the call
succeeded: line 128 opens the file before line 129 looks at the subtype. -/
theorem file_opened_before_resolution :
    resolve armEnv.ULONG_MAX "9999" = none ∧
    (main armEnv ["ios-cpuhack", "a.out", "9999"]).exit = 1 ∧
    Call.fopen true ∈ (main armEnv ["ios-cpuhack", "a.out", "9999"]).calls := by
  decide

/-- C9, amended: for every subtype argument that fails to resolve, the run
exits 1 without reading or writing the file: its first call is the `fopen` of
line 128, made before the subtype is looked at, no `fread`, `fseek` or
`fwrite` call is made, and the bytes of the file are as they were. -/
theorem unresolved_subtype_no_read_no_write (env : Env) (argv : List String)
    (hargs : 2 < argv.length)
    (hres : resolve env.ULONG_MAX (argv.getD 2 "") = none) :
    (main env argv).exit = 1 ∧ (main env argv).file = env.file ∧
    (main env argv).calls.head? = some (Call.fopen env.file.isSome) ∧
    Call.fseek ∉ (main env argv).calls ∧
    ∀ n, Call.fread n ∉ (main env argv).calls ∧ Call.fwrite n ∉ (main env argv).calls := by
  rw [main_invalid_subtype env argv hargs hres]
  exact ⟨rfl, rfl, rfl, by simp, fun n => by simp⟩

theorem unresolved_subtype_no_read_no_write_witness :
    (main armEnv ["ios-cpuhack", "a.out", "armv8"]).exit = 1 ∧
    (main armEnv ["ios-cpuhack", "a.out", "armv8"]).file = armEnv.file ∧
    (main armEnv ["ios-cpuhack", "a.out", "armv8"]).calls.head? =
      some (Call.fopen armEnv.file.isSome) ∧
    Call.fseek ∉ (main armEnv ["ios-cpuhack", "a.out", "armv8"]).calls ∧
    ∀ n, Call.fread n ∉ (main armEnv ["ios-cpuhack", "a.out", "armv8"]).calls ∧
      Call.fwrite n ∉ (main armEnv ["ios-cpuhack", "a.out", "armv8"]).calls :=
  unresolved_subtype_no_read_no_write armEnv ["ios-cpuhack", "a.out", "armv8"]
    (by decide) (by decide)

/-- C10: the run exits 0 exactly when at least two arguments are given, the
subtype argument resolves, the file opens, it holds a full 28-byte header, the
magic is 0xFEEDFACE, and either the cputype is not 12 or `fwrite` takes all
28 bytes; in every other case it exits 1. -/
theorem exit_code_determined (env : Env) (argv : List String) :
    ((main env argv).exit = 0 ↔
      2 < argv.length ∧ (∃ c, resolve env.ULONG_MAX (argv.getD 2 "") = some c) ∧
      ∃ bytes m, env.file = some bytes ∧ 28 ≤ bytes.length ∧
        decode env.bigEndian bytes = some m ∧ m.magic = MH_MAGIC ∧
        (m.cputype ≠ CTM_ARM ∨ 28 ≤ env.fwriteCount)) ∧
    ((main env argv).exit = 0 ∨ (main env argv).exit = 1) := by
  by_cases hargs : argv.length ≤ 2
  · rw [main_usage env argv hargs]
    exact ⟨⟨fun h => absurd h Nat.one_ne_zero, fun h => absurd h.1 (by omega)⟩, Or.inr rfl⟩
  have hargs2 : 2 < argv.length := by omega
  cases hres : resolve env.ULONG_MAX (argv.getD 2 "") with
  | none =>
    rw [main_invalid_subtype env argv hargs2 hres]
    refine ⟨⟨fun h => absurd h Nat.one_ne_zero, fun h => ?_⟩, Or.inr rfl⟩
    obtain ⟨_, ⟨c, hc⟩, _⟩ := h
    exact absurd hc (by simp)
  | some c =>
    cases hfile : env.file with
    | none =>
      rw [main_open_failed env argv c hargs2 hres hfile]
      refine ⟨⟨fun h => absurd h Nat.one_ne_zero, fun h => ?_⟩, Or.inr rfl⟩
      obtain ⟨_, _, bytes, m, hb, _⟩ := h
      exact absurd hb (by simp)
    | some bytes =>
      cases hdec : decode env.bigEndian bytes with
      | none =>
        rw [main_short_read env argv c bytes hargs2 hres hfile
          ((decode_eq_none_iff _ _).mp hdec)]
        refine ⟨⟨fun h => absurd h Nat.one_ne_zero, fun h => ?_⟩, Or.inr rfl⟩
        obtain ⟨_, _, bytes1, m, hb, _, hd, _⟩ := h
        simp only [Option.some.injEq] at hb
        subst hb
        rw [hdec] at hd
        exact absurd hd (by simp)
      | some m =>
        have hlen : 28 ≤ bytes.length := by
          by_contra hl
          have := (decode_eq_none_iff env.bigEndian bytes).mpr (by omega)
          rw [hdec] at this
          exact absurd this (by simp)
        by_cases hmagic : m.magic = MH_MAGIC
        · by_cases harm : m.cputype = CTM_ARM
          · by_cases hw : 28 ≤ env.fwriteCount
            · rw [main_patched env argv c bytes m hargs2 hres hfile hdec hmagic harm hw]
              exact ⟨⟨fun _ => ⟨hargs2, ⟨c, rfl⟩, bytes, m, rfl, hlen, hdec, hmagic,
                Or.inr hw⟩, fun _ => rfl⟩, Or.inl rfl⟩
            · have hsw := main_short_write env argv c bytes m hargs2 hres hfile hdec
                hmagic harm (by omega)
              rw [hsw.1]
              refine ⟨⟨fun h => absurd h Nat.one_ne_zero, fun h => ?_⟩, Or.inr rfl⟩
              obtain ⟨_, _, bytes1, m1, hb, _, hd, _, hor⟩ := h
              simp only [Option.some.injEq] at hb
              subst hb
              rw [hdec, Option.some.injEq] at hd
              subst hd
              rcases hor with h1 | h1
              · exact absurd harm h1
              · exact absurd h1 hw
          · rw [main_not_arm env argv c bytes m hargs2 hres hfile hdec hmagic harm]
            exact ⟨⟨fun _ => ⟨hargs2, ⟨c, rfl⟩, bytes, m, rfl, hlen, hdec, hmagic,
              Or.inl harm⟩, fun _ => rfl⟩, Or.inl rfl⟩
        · rw [main_invalid_magic env argv c bytes m hargs2 hres hfile hdec hmagic]
          refine ⟨⟨fun h => absurd h Nat.one_ne_zero, fun h => ?_⟩, Or.inr rfl⟩
          obtain ⟨_, _, bytes1, m1, hb, _, hd, hm, _⟩ := h
          simp only [Option.some.injEq] at hb
          subst hb
          rw [hdec, Option.some.injEq] at hd
          subst hd
          exact absurd hm hmagic

/-! ## The symbol table and the digit test, in full -/

theorem isnumericChars_zero_or_one (cs : List Char) :
    isnumericChars cs = 0 ∨ isnumericChars cs = 1 := by
  induction cs with
  | nil => exact Or.inr rfl
  | cons c cs ih =>
    unfold isnumericChars
    by_cases h : c.toNat ≥ 57 ∨ c.toNat ≤ 48
    · rw [if_pos h]; exact Or.inl rfl
    · rw [if_neg h]; exact ih

theorem isnumericChars_eq_one_iff (cs : List Char) :
    isnumericChars cs = 1 ↔ ∀ c ∈ cs, 48 < c.toNat ∧ c.toNat < 57 := by
  induction cs with
  | nil => exact ⟨fun _ c hc => absurd hc (List.not_mem_nil c), fun _ => rfl⟩
  | cons c cs ih =>
    unfold isnumericChars
    by_cases h : c.toNat ≥ 57 ∨ c.toNat ≤ 48
    · rw [if_pos h]
      refine ⟨fun h0 => absurd h0 (by decide), fun hall => ?_⟩
      have := hall c (List.mem_cons_self c cs)
      omega
    · rw [if_neg h, ih]
      constructor
      · intro hall d hd
        rcases List.mem_cons.mp hd with rfl | hd
        · omega
        · exact hall d hd
      · intro hall d hd
        exact hall d (List.mem_cons_of_mem c hd)

theorem char_digit_1_to_8_iff (c : Char) :
    (48 < c.toNat ∧ c.toNat < 57) ↔ c ∈ ['1', '2', '3', '4', '5', '6', '7', '8'] := by
  constructor
  · rintro ⟨h1, h2⟩
    have hc : c = Char.ofNat c.toNat := (Char.ofNat_toNat c).symm
    generalize c.toNat = n at hc h1 h2
    subst hc
    interval_cases n <;> decide
  · intro h
    simp only [List.mem_cons, List.mem_singleton, List.not_mem_nil, or_false] at h
    rcases h with rfl | rfl | rfl | rfl | rfl | rfl | rfl | rfl <;> decide

theorem getcpusubtype_mem_knownNames (c : Nat) (h : c ∈ knownCodes) :
    getcpusubtype c ∈ knownNames := by
  simp only [knownCodes, List.mem_cons, List.mem_singleton, List.not_mem_nil,
    or_false] at h
  rcases h with rfl | rfl | rfl | rfl | rfl | rfl | rfl | rfl | rfl | rfl | rfl | rfl <;>
    decide

/-- C11: `getcpusubtype` returns "unknown" exactly for the codes outside
{0, 5, 6, 7, 8, 9, 10, 11, 12, 14, 15, 16}; for the twelve codes of the set it
returns, in order, armall, armv4t, armv6, armv5tej, armxscale, armv7, armv7f,
armv7s, armv7k, armv6m, armv7m, armv7em, which are pairwise distinct and none
of which is "unknown". -/
theorem getcpusubtype_table (code : Nat) :
    (getcpusubtype code = "unknown" ↔
      code ∉ [0, 5, 6, 7, 8, 9, 10, 11, 12, 14, 15, 16]) ∧
    [0, 5, 6, 7, 8, 9, 10, 11, 12, 14, 15, 16].map getcpusubtype =
      ["armall", "armv4t", "armv6", "armv5tej", "armxscale", "armv7", "armv7f",
       "armv7s", "armv7k", "armv6m", "armv7m", "armv7em"] ∧
    ["armall", "armv4t", "armv6", "armv5tej", "armxscale", "armv7", "armv7f",
     "armv7s", "armv7k", "armv6m", "armv7m", "armv7em"].Nodup ∧
    "unknown" ∉ ["armall", "armv4t", "armv6", "armv5tej", "armxscale", "armv7",
      "armv7f", "armv7s", "armv7k", "armv6m", "armv7m", "armv7em"] :=
  ⟨getcpusubtype_eq_unknown_iff code, by decide, by decide, by decide⟩

/-- C12: when `getcpusubtype_i` does not return the not-found value
0xFFFFFFFF for a string, what it returns is a known code and `getcpusubtype`
renders that code as the very same string, so the string is one of the
subtype names; the match is exact and case sensitive: "ARMV7", "armv7 " and
"unknown" give the not-found value. -/
theorem getcpusubtype_i_exact_match (s : String)
    (h : getcpusubtype_i s ≠ 0xFFFFFFFF) :
    getcpusubtype_i s ∈ knownCodes ∧ getcpusubtype (getcpusubtype_i s) = s ∧
    s ∈ knownNames ∧
    getcpusubtype_i "ARMV7" = 0xFFFFFFFF ∧ getcpusubtype_i "armv7 " = 0xFFFFFFFF ∧
    getcpusubtype_i "unknown" = 0xFFFFFFFF := by
  have hk := getcpusubtype_i_known s h
  refine ⟨hk.1, hk.2, ?_, by decide, by decide, by decide⟩
  have := getcpusubtype_mem_knownNames _ hk.1
  rwa [hk.2] at this

theorem getcpusubtype_i_exact_match_witness :
    getcpusubtype_i "armv7" ∈ knownCodes ∧
    getcpusubtype (getcpusubtype_i "armv7") = "armv7" ∧
    "armv7" ∈ knownNames ∧
    getcpusubtype_i "ARMV7" = 0xFFFFFFFF ∧ getcpusubtype_i "armv7 " = 0xFFFFFFFF ∧
    getcpusubtype_i "unknown" = 0xFFFFFFFF :=
  getcpusubtype_i_exact_match "armv7" (by decide)

/-- C16: `isnumeric` returns 1 exactly when every character of the string
lies strictly between '0' and '9', that is, is one of '1' to '8', and 0
otherwise; so it returns 0 for every string that contains the digit '0' or the
digit '9', and 1 for the empty string. -/
theorem isnumeric_accepts_1_to_8_only (s : String) :
    (isnumeric s = 1 ↔
      ∀ c ∈ s.toList, Char.toNat '0' < c.toNat ∧ c.toNat < Char.toNat '9') ∧
    (isnumeric s = 1 ↔ ∀ c ∈ s.toList, c ∈ ['1', '2', '3', '4', '5', '6', '7', '8']) ∧
    (isnumeric s = 0 ∨ isnumeric s = 1) ∧
    ('0' ∈ s.toList ∨ '9' ∈ s.toList → isnumeric s = 0) ∧
    isnumeric "" = 1 := by
  have h1 : isnumeric s = 1 ↔ ∀ c ∈ s.toList, 48 < c.toNat ∧ c.toNat < 57 :=
    isnumericChars_eq_one_iff s.toList
  have h01 : isnumeric s = 0 ∨ isnumeric s = 1 := isnumericChars_zero_or_one s.toList
  refine ⟨h1, ?_, h01, ?_, by decide⟩
  · rw [h1]
    exact ⟨fun hall c hc => (char_digit_1_to_8_iff c).mp (hall c hc),
      fun hall c hc => (char_digit_1_to_8_iff c).mpr (hall c hc)⟩
  · intro hc
    rcases h01 with h0 | h0
    · exact h0
    · have hall := h1.mp h0
      rcases hc with hc | hc
      · exact absurd (hall _ hc).1 (by decide)
      · exact absurd (hall _ hc).2 (by decide)

/-- C13: for every file shorter than 28 bytes and every subtype argument that
resolves, the run prints "reading header failed" and nothing about magic or
cputype, closes the file, leaves its bytes as they were and exits 1. -/
theorem short_file_read_error (env : Env) (argv : List String) (c : Nat)
    (bytes : List Byte) (hargs : 2 < argv.length)
    (hres : resolve env.ULONG_MAX (argv.getD 2 "") = some c)
    (hfile : env.file = some bytes) (hlen : bytes.length < 28) :
    (main env argv).exit = 1 ∧ (main env argv).file = some bytes ∧
    (main env argv).out = "reading header failed" ∧
    (main env argv).calls = [Call.fopen true, Call.fread bytes.length, Call.fclose] := by
  rw [main_short_read env argv c bytes hargs hres hfile hlen]
  exact ⟨rfl, rfl, rfl, rfl⟩

theorem short_file_read_error_witness :
    (main { armEnv with file := some truncatedFile } ["ios-cpuhack", "a.out", "armv7"]).exit
      = 1 ∧
    (main { armEnv with file := some truncatedFile } ["ios-cpuhack", "a.out", "armv7"]).file
      = some truncatedFile ∧
    (main { armEnv with file := some truncatedFile } ["ios-cpuhack", "a.out", "armv7"]).out
      = "reading header failed" ∧
    (main { armEnv with file := some truncatedFile } ["ios-cpuhack", "a.out", "armv7"]).calls
      = [Call.fopen true, Call.fread truncatedFile.length, Call.fclose] :=
  short_file_read_error { armEnv with file := some truncatedFile }
    ["ios-cpuhack", "a.out", "armv7"] 9 truncatedFile (by decide) (by decide) rfl
    (by decide)

/-! ## Patching by name, the file handle, and repeated runs -/

theorem resolve_armv7s (u : Nat) : resolve u "armv7s" = some 11 :=
  (resolve_eq_some_iff u "armv7s" 11).mpr (Or.inl ⟨by decide, by decide⟩)

theorem setText_armv7s (m : mach_header) :
    setText { m with cpusubtype := 11 } = "set cpu subtype to: 11 (armv7s)\n" := by
  show "set cpu subtype to: " ++ fmt_d 11 ++ " (" ++ getcpusubtype 11 ++ ")\n" = _
  decide

theorem withSubtypeBytes_twice (be : Bool) (c1 c2 : Nat) (bytes : List Byte)
    (h : 12 ≤ bytes.length) :
    withSubtypeBytes be c2 (withSubtypeBytes be c1 bytes) = withSubtypeBytes be c2 bytes := by
  have h8 : (bytes.take 8).length = 8 := by rw [List.length_take]; omega
  have h12 : (bytes.take 8 ++ bytesOfU32 be c1).length = 12 := by
    rw [List.length_append, h8, bytesOfU32_length]
  have e1 : (withSubtypeBytes be c1 bytes).take 8 = bytes.take 8 := by
    rw [withSubtypeBytes, List.append_assoc, List.take_left' h8]
  have e2 : (withSubtypeBytes be c1 bytes).drop 12 = bytes.drop 12 := by
    rw [withSubtypeBytes, List.drop_left' h12]
  rw [withSubtypeBytes, e1, e2, withSubtypeBytes]

/-- Once the subtype argument has resolved and the file has opened, every
return of `main` is preceded by `fclose`. -/
theorem closed_when_resolved (env : Env) (argv : List String) (c : Nat)
    (bytes : List Byte) (hargs : 2 < argv.length)
    (hres : resolve env.ULONG_MAX (argv.getD 2 "") = some c)
    (hfile : env.file = some bytes) :
    (main env argv).calls.getLast? = some Call.fclose := by
  cases hdec : decode env.bigEndian bytes with
  | none =>
    rw [main_short_read env argv c bytes hargs hres hfile
      ((decode_eq_none_iff _ _).mp hdec)]
    rfl
  | some m =>
    by_cases hmagic : m.magic = MH_MAGIC
    · by_cases harm : m.cputype = CTM_ARM
      · by_cases hw : 28 ≤ env.fwriteCount
        · rw [main_patched env argv c bytes m hargs hres hfile hdec hmagic harm hw]
          rfl
        · rw [(main_short_write env argv c bytes m hargs hres hfile hdec hmagic harm
            (by omega)).2]
          rfl
      · rw [main_not_arm env argv c bytes m hargs hres hfile hdec hmagic harm]
        rfl
    · rw [main_invalid_magic env argv c bytes m hargs hres hfile hdec hmagic]
      rfl

/-- With the subtype argument "armv7s", when `fwrite` takes all 28 bytes and
none of them reaches the file, the run still exits 0 and prints the
confirmation, and the file is as it was: `main` does not look at the result
of `fclose`. -/
theorem confirmation_without_flush :
    (main armEnvNoFlush ["ios-cpuhack", "a.out", "armv7s"]).exit = 0 ∧
    (main armEnvNoFlush ["ios-cpuhack", "a.out", "armv7s"]).out =
      reportText armHeader ++ flagsText armHeader.flags ++
        "set cpu subtype to: 11 (armv7s)\n" ∧
    (main armEnvNoFlush ["ios-cpuhack", "a.out", "armv7s"]).file = some armFile := by
  decide

/-- C14: on every file that holds a full header (so of at least 28 bytes) with
magic 0xFEEDFACE and cputype 12, the run with the subtype argument "armv7s",
when the file opens and `fwrite` takes all 28 bytes, exits 0 and ends its
output with the line "set cpu subtype to: 11 (armv7s)"; and when the bytes
written reach the file (at least the first twelve, up to the end of the
cpusubtype field) the header of the resulting file differs from the original
in its cpusubtype only, which is 11. -/
theorem armv7s_sets_11 (env : Env) (argv : List String) (bytes : List Byte)
    (m : mach_header) (hargs : 2 < argv.length) (harg : argv.getD 2 "" = "armv7s")
    (hfile : env.file = some bytes)
    (hdec : decode env.bigEndian bytes = some m)
    (hmagic : m.magic = MH_MAGIC) (harm : m.cputype = CTM_ARM)
    (hw : 28 ≤ env.fwriteCount) :
    (main env argv).exit = 0 ∧
    (12 ≤ env.flushCount →
      ∃ bytes1, (main env argv).file = some bytes1 ∧
        decode env.bigEndian bytes1 = some { m with cpusubtype := 11 }) ∧
    getcpusubtype_i "armv7s" = 11 ∧ getcpusubtype 11 = "armv7s" ∧
    (main env argv).out =
      reportText m ++ flagsText m.flags ++ "set cpu subtype to: 11 (armv7s)\n" := by
  have hres : resolve env.ULONG_MAX (argv.getD 2 "") = some 11 := by
    rw [harg]; exact resolve_armv7s _
  refine ⟨?_, ?_, by decide, by decide, ?_⟩
  · rw [main_patched env argv 11 bytes m hargs hres hfile hdec hmagic harm hw]
  · intro hflush
    rw [main_patched_flushed env argv 11 bytes m hargs hres hfile hdec hmagic harm hw
      hflush]
    exact ⟨_, rfl, decode_withSubtypeBytes _ _ _ _ hdec (by decide)⟩
  · rw [main_patched env argv 11 bytes m hargs hres hfile hdec hmagic harm hw]
    show reportText m ++ flagsText m.flags ++ setText { m with cpusubtype := 11 } = _
    rw [setText_armv7s]

theorem armv7s_sets_11_witness :
    (main armEnv ["ios-cpuhack", "a.out", "armv7s"]).exit = 0 ∧
    (∃ bytes1, (main armEnv ["ios-cpuhack", "a.out", "armv7s"]).file = some bytes1 ∧
      decode armEnv.bigEndian bytes1 = some { armHeader with cpusubtype := 11 }) ∧
    getcpusubtype_i "armv7s" = 11 ∧ getcpusubtype 11 = "armv7s" ∧
    (main armEnv ["ios-cpuhack", "a.out", "armv7s"]).out =
      reportText armHeader ++ flagsText armHeader.flags ++
        "set cpu subtype to: 11 (armv7s)\n" :=
  have h := armv7s_sets_11 armEnv ["ios-cpuhack", "a.out", "armv7s"] armFile armHeader
    (by decide) (by decide) rfl (by decide) (by decide) (by decide) (by decide)
  ⟨h.1, h.2.1 (by decide), h.2.2⟩

/-- C15, on the path where it fails: with the subtype argument "9999" the
file is opened with success at line 128, the argument does not resolve, and
`main` returns 1 at line 138 with no `fclose` call: the handle is still open
when the run ends. -/
theorem invalid_subtype_exit_leaves_file_open :
    resolve armEnv.ULONG_MAX "9999" = none ∧
    (main armEnv ["ios-cpuhack", "a.out", "9999"]).exit = 1 ∧
    (main armEnv ["ios-cpuhack", "a.out", "9999"]).calls = [Call.fopen true] ∧
    Call.fclose ∉ (main armEnv ["ios-cpuhack", "a.out", "9999"]).calls := by
  decide

theorem flushedFile_twice (be : Bool) (c1 c2 k : Nat) (bytes : List Byte)
    (h : 12 ≤ bytes.length) (hk : k ≤ bytes.length) :
    flushedFile be c2 k (flushedFile be c1 k bytes) = flushedFile be c2 k bytes := by
  obtain ⟨x, _, hx⟩ := flushedFile_eq_withSubtypeBytes be c1 k bytes h hk
  have hd := flushedFile_drop be c1 k bytes h hk
  rw [flushedFile, hd, hx, withSubtypeBytes_twice be x c2 bytes h, flushedFile]

/-- The file a patching run leaves still holds a full header with the magic
and the cputype of the original. -/
theorem decode_flushedFile (be : Bool) (c k : Nat) (bytes : List Byte) (m : mach_header)
    (hdec : decode be bytes = some m) (hk : k ≤ 28) :
    ∃ x, decode be (flushedFile be c k bytes) = some { m with cpusubtype := x } := by
  have hlen := length_of_decode be bytes m hdec
  obtain ⟨x, hx, e⟩ := flushedFile_eq_withSubtypeBytes be c k bytes (by omega) (by omega)
  exact ⟨x, by rw [e]; exact decode_withSubtypeBytes be bytes m x hdec hx⟩

/-- C17: on a file of at least 28 bytes with magic 0xFEEDFACE and cputype 12,
for subtype arguments that both resolve, when the file opens and `fwrite`
takes all 28 bytes, the run with the first argument exits 0, the run with the
second argument on the file the first run left exits 0, and the file it leaves
is the one a single run with the second argument leaves; a second run with the
same argument leaves the file of the first. This holds whatever part of the
bytes written reaches the file, the same part in each run. -/
theorem last_patch_wins (env : Env) (argv1 argv2 : List String) (c1 c2 : Nat)
    (bytes : List Byte) (m : mach_header)
    (hargs1 : 2 < argv1.length) (hargs2 : 2 < argv2.length)
    (hres1 : resolve env.ULONG_MAX (argv1.getD 2 "") = some c1)
    (hres2 : resolve env.ULONG_MAX (argv2.getD 2 "") = some c2)
    (hfile : env.file = some bytes) (hlen : 28 ≤ bytes.length)
    (hdec : decode env.bigEndian bytes = some m)
    (hmagic : m.magic = MH_MAGIC) (harm : m.cputype = CTM_ARM)
    (hw : 28 ≤ env.fwriteCount) :
    (main env argv1).exit = 0 ∧
    (main { env with file := (main env argv1).file } argv2).exit = 0 ∧
    (main { env with file := (main env argv1).file } argv2).file = (main env argv2).file ∧
    (main { env with file := (main env argv2).file } argv2).file = (main env argv2).file := by
  have hk : min env.flushCount 28 ≤ 28 := Nat.min_le_right _ _
  have r1 := main_patched env argv1 c1 bytes m hargs1 hres1 hfile hdec hmagic harm hw
  have r2 := main_patched env argv2 c2 bytes m hargs2 hres2 hfile hdec hmagic harm hw
  obtain ⟨x1, d1⟩ := decode_flushedFile env.bigEndian c1 (min env.flushCount 28) bytes m
    hdec hk
  obtain ⟨x2, d2⟩ := decode_flushedFile env.bigEndian c2 (min env.flushCount 28) bytes m
    hdec hk
  have r12 := main_patched
    { env with file := some (flushedFile env.bigEndian c1 (min env.flushCount 28) bytes) }
    argv2 c2 (flushedFile env.bigEndian c1 (min env.flushCount 28) bytes)
    { m with cpusubtype := x1 } hargs2 hres2 rfl d1 hmagic harm hw
  have r22 := main_patched
    { env with file := some (flushedFile env.bigEndian c2 (min env.flushCount 28) bytes) }
    argv2 c2 (flushedFile env.bigEndian c2 (min env.flushCount 28) bytes)
    { m with cpusubtype := x2 } hargs2 hres2 rfl d2 hmagic harm hw
  rw [r1, r2, r12, r22]
  refine ⟨rfl, rfl, ?_, ?_⟩
  · show some (flushedFile env.bigEndian c2 (min env.flushCount 28)
        (flushedFile env.bigEndian c1 (min env.flushCount 28) bytes))
      = some (flushedFile env.bigEndian c2 (min env.flushCount 28) bytes)
    rw [flushedFile_twice _ _ _ _ _ (by omega) (by omega)]
  · show some (flushedFile env.bigEndian c2 (min env.flushCount 28)
        (flushedFile env.bigEndian c2 (min env.flushCount 28) bytes))
      = some (flushedFile env.bigEndian c2 (min env.flushCount 28) bytes)
    rw [flushedFile_twice _ _ _ _ _ (by omega) (by omega)]

theorem last_patch_wins_witness :
    (main armEnv ["ios-cpuhack", "a.out", "armv6"]).exit = 0 ∧
    (main { armEnv with file := (main armEnv ["ios-cpuhack", "a.out", "armv6"]).file }
      ["ios-cpuhack", "a.out", "16"]).exit = 0 ∧
    (main { armEnv with file := (main armEnv ["ios-cpuhack", "a.out", "armv6"]).file }
      ["ios-cpuhack", "a.out", "16"]).file =
        (main armEnv ["ios-cpuhack", "a.out", "16"]).file ∧
    (main { armEnv with file := (main armEnv ["ios-cpuhack", "a.out", "16"]).file }
      ["ios-cpuhack", "a.out", "16"]).file =
        (main armEnv ["ios-cpuhack", "a.out", "16"]).file :=
  last_patch_wins armEnv ["ios-cpuhack", "a.out", "armv6"] ["ios-cpuhack", "a.out", "16"]
    6 16 armFile armHeader (by decide) (by decide) (by decide) (by decide) rfl (by decide)
    (by decide) (by decide) (by decide) (by decide)

end CpuHack
